import Mathlib

/-!
Shallow embedding of the partition lifecycle manager of
`benchmark-postgres-partition` (`src/main.go`), and proofs about it.

A Go `time.Time` denotes an instant; `t.UTC()` re-expresses the same instant
in UTC and `Year()/Month()/Day()/...` then read the UTC civil components.
We model an instant directly by its UTC civil components, so `.UTC()` is the
identity and the component accessors are field reads.

The database connection is modelled by an explicit state (`DBState`) holding
the tables the program creates and the rows it inserts; a DDL statement that
can fail for environmental reasons (connectivity, permissions) takes its
backend outcome as an explicit `Option String` argument (`none` = success,
`some msg` = backend failure with message `msg`).  The `sync.Map` cache
`Logic.childTableMap` is modelled as an association list that is only ever
prepended to, matching `Load`/`Store`.  Two instrumentation fields
(`createLog`, `createdOK`) record, respectively, every invocation of
`CreateNewPartitionChildTable` and every invocation that returned success;
they are write-only ghost state used to phrase the cache-amortization and
cache-invariant claims and are touched by no other operation.
-/

/-- A point in time, represented by its UTC civil components
(Go `time.Time`, viewed in UTC). -/
structure Time where
  year : Nat
  month : Nat
  day : Nat
  hour : Nat
  minute : Nat
  second : Nat
  nsec : Nat
deriving DecidableEq, Repr

/-- The zero `time.Time` of Go: January 1, year 1, 00:00:00 UTC. -/
def Time.zero : Time := ⟨1, 1, 1, 0, 0, 0, 0⟩

/-- Go `time.Date(t.Year(), t.Month(), t.Day(), 0, 0, 0, 0, time.UTC)`:
truncation of a time to its UTC calendar day (as in `ChildTableName`). -/
def dayOf (t : Time) : Time := ⟨t.year, t.month, t.day, 0, 0, 0, 0⟩

/-- Two times fall on the same UTC calendar day. -/
def sameDay (t1 t2 : Time) : Prop :=
  t1.year = t2.year ∧ t1.month = t2.month ∧ t1.day = t2.day

instance (t1 t2 : Time) : Decidable (sameDay t1 t2) := by
  unfold sameDay; infer_instance

/-- Go's zero-padded two-digit formatting (`Format("01")`, `Format("02")`,
`Format("15")`, `Format("04")`, `Format("05")`): two decimal digits for
values below 100, plain decimal otherwise. -/
def pad2 (n : Nat) : String :=
  if n < 100 then String.mk [Nat.digitChar (n / 10), Nat.digitChar (n % 10)]
  else Nat.repr n

/-- Go's four-digit year formatting (`Format("2006")`): four zero-padded
decimal digits for years below 10000, plain decimal otherwise. -/
def pad4 (n : Nat) : String :=
  if n < 10000 then
    String.mk [Nat.digitChar (n / 1000), Nat.digitChar (n / 100 % 10),
               Nat.digitChar (n / 10 % 10), Nat.digitChar (n % 10)]
  else Nat.repr n

/-- Model of `Logic.ChildTableName` (`src/main.go:285-294`): normalize to UTC,
truncate to the day, format as `transaction_partition_y<YYYY>_m<MM>_d<DD>`. -/
def ChildTableName (currentTime : Time) : String :=
  let currentDay := dayOf currentTime
  "transaction_partition_y" ++ pad4 currentDay.year ++
    "_m" ++ pad2 currentDay.month ++ "_d" ++ pad2 currentDay.day

/-- Nine zero-padded decimal digits of a nanosecond count (below 10^9). -/
def pad9 (n : Nat) : List Char :=
  [Nat.digitChar (n / 100000000 % 10), Nat.digitChar (n / 10000000 % 10),
   Nat.digitChar (n / 1000000 % 10), Nat.digitChar (n / 100000 % 10),
   Nat.digitChar (n / 10000 % 10), Nat.digitChar (n / 1000 % 10),
   Nat.digitChar (n / 100 % 10), Nat.digitChar (n / 10 % 10),
   Nat.digitChar (n % 10)]

/-- Drop trailing zero digits (Go's `.999999999` fractional format). -/
def dropTrailingZeros (l : List Char) : List Char :=
  (l.reverse.dropWhile (fun c => c == Char.ofNat 48)).reverse

/-- The fractional-seconds part of Go's `time.RFC3339Nano` layout:
empty when the nanosecond count is zero, otherwise a dot followed by the
nanoseconds with trailing zeros removed. -/
def nanoFrac (n : Nat) : String :=
  if n = 0 then ("") else String.mk (Char.ofNat 46 :: dropTrailingZeros (pad9 n))

/-- Go `t.Format(time.RFC3339Nano)` for a UTC time: layout
`2006-01-02T15:04:05.999999999Z07:00`, where a UTC offset renders as `Z`. -/
def rfc3339Nano (t : Time) : String :=
  pad4 t.year ++ "-" ++ pad2 t.month ++ "-" ++ pad2 t.day ++ "T" ++
    pad2 t.hour ++ ":" ++ pad2 t.minute ++ ":" ++ pad2 t.second ++
    nanoFrac t.nsec ++ "Z"

/-- A single-quote character as a string (for embedding SQL literals). -/
def sqlQuote : String := String.singleton (Char.ofNat 39)

/-- The DDL text built by `Logic.CreateNewPartitionChildTable`
(`src/main.go:299-303`): create-if-not-exists of the child table, with the
partition bound literal being `currentTime.UTC().Format(time.RFC3339Nano)` —
the full timestamp, not a truncated day. -/
def childTableDDL (currentTime : Time) : String :=
  "CREATE TABLE IF NOT EXISTS " ++ ChildTableName currentTime ++
    " PARTITION OF transactions_partitioned FOR VALUES IN (" ++
    sqlQuote ++ rfc3339Nano currentTime ++ sqlQuote ++ ");"

/-- The `Transaction` record (`src/main.go:217-224`). -/
structure Transaction where
  ID : String
  UserID : String
  Info : String
  Status : String
  TrxDate : Time
  TrxTimestamp : Time
deriving DecidableEq, Repr

/-- The zero value `&Transaction{}` that the fetch functions scan into. -/
def Transaction.zero : Transaction := ⟨"", "", "", "", Time.zero, Time.zero⟩

/-- Errors surfaced by the logic layer: schema (DDL) failures and
write (insert) rejections. -/
inductive Err where
  | schema (msg : String)
  | write (msg : String)
deriving DecidableEq, Repr

/-- Lexicographic strict order on times (full precision), used to model
`ORDER BY trx_timestamp DESC LIMIT 1`. -/
def Time.ltb (a b : Time) : Bool :=
  if a.year ≠ b.year then a.year < b.year
  else if a.month ≠ b.month then a.month < b.month
  else if a.day ≠ b.day then a.day < b.day
  else if a.hour ≠ b.hour then a.hour < b.hour
  else if a.minute ≠ b.minute then a.minute < b.minute
  else if a.second ≠ b.second then a.second < b.second
  else a.nsec < b.nsec

/-- Backend database state: which tables exist and which rows they hold.
`trx_date` is a `DATE` column, so stored rows carry a day-truncated date. -/
structure DBState where
  flatCreated : Bool
  parentCreated : Bool
  childTables : List String
  partRows : List Transaction
  flatRows : List Transaction
deriving DecidableEq, Repr

/-- Go `sync.Map.Load`: association-list lookup, `none` for unseen keys. -/
def mapLookup : List (String × Bool) → String → Option Bool
  | [], _ => none
  | (k, v) :: rest, key => if k = key then some v else mapLookup rest key

/-- Go `sync.Map.Store`: record the binding (newest binding shadows older). -/
def mapStore (m : List (String × Bool)) (k : String) (v : Bool) :
    List (String × Bool) :=
  (k, v) :: m

/-- The state of a `Logic` value plus the backend it talks to.
`childTableMap` is the partition-existence cache; `createLog` and
`createdOK` are instrumentation (see the module docstring). -/
structure LogicState where
  db : DBState
  childTableMap : List (String × Bool)
  createLog : List String
  createdOK : List String
deriving DecidableEq, Repr

/-- The state right after `NewLogic`: empty backend, empty cache. -/
def emptyState : LogicState := ⟨⟨false, false, [], [], []⟩, [], [], []⟩

/-- Model of `Logic.CreateLogTable` (`src/main.go:246-254`): create the flat
`transactions` table, wrapping any backend error. -/
def CreateLogTable (backendFail : Option String) (s : LogicState) :
    LogicState × Option Err :=
  match backendFail with
  | some msg =>
      (s, some (Err.schema ("create transaction table without partition error: " ++ msg)))
  | none => ({ s with db := { s.db with flatCreated := true } }, none)

/-- Model of `Logic.CreatePartitionParentTable` (`src/main.go:275-283`): create the
partitioned parent table, wrapping any backend error. -/
def CreatePartitionParentTable (backendFail : Option String) (s : LogicState) :
    LogicState × Option Err :=
  match backendFail with
  | some msg =>
      (s, some (Err.schema ("create transaction partitioned parent table error: " ++ msg)))
  | none => ({ s with db := { s.db with parentCreated := true } }, none)

/-- Model of `Logic.CreateNewPartitionChildTable` (`src/main.go:297-312`): build the
child-table DDL for the day of `currentTime` and execute it.  On backend
failure the wrapped error (which quotes the DDL) is returned and the backend
is unchanged; on success the child table exists afterwards (idempotent
create-if-not-exists).  Instrumentation: the call is appended to `createLog`,
and to `createdOK` when it succeeds. -/
def CreateNewPartitionChildTable (currentTime : Time)
    (backendFail : Option String) (s : LogicState) : LogicState × Option Err :=
  let tableName := ChildTableName currentTime
  let sql := childTableDDL currentTime
  let s0 := { s with createLog := tableName :: s.createLog }
  match backendFail with
  | some msg =>
      (s0, some (Err.schema
        ("create transaction partitioned child table error: " ++ msg ++ ": " ++ sql)))
  | none =>
      ({ s0 with
          db := { s0.db with
            childTables :=
              if tableName ∈ s0.db.childTables then s0.db.childTables
              else tableName :: s0.db.childTables },
          createdOK := tableName :: s0.createdOK }, none)

/-- Model of `Logic.CheckPartitionChildTable` (`src/main.go:315-345`): probe the
catalog (`to_regclass`) for the table name; error when it does not resolve. -/
def CheckPartitionChildTable (tableName : String) (s : LogicState) :
    Option Err :=
  if tableName ∈ s.db.childTables then none
  else some (Err.schema ("not found table " ++ tableName ++ ", returning  from query"))

/-- Model of `Logic.InsertTransactionPartitioned` (`src/main.go:348-363`): parameterized
insert into `transactions_partitioned` with `RETURNING *`.  The backend routes
the row to the child table for its day: if none exists the write is rejected,
as it is on a `(id, trx_date)` primary-key collision.  On success the scan of
the returned row updates the caller's record (the `DATE` column truncates the
date to the day). -/
def InsertTransactionPartitioned (trx : Transaction) (s : LogicState) :
    LogicState × Transaction × Option Err :=
  if ChildTableName trx.TrxDate ∈ s.db.childTables then
    if s.db.partRows.any (fun r =>
        decide (r.ID = trx.ID ∧ dayOf r.TrxDate = dayOf trx.TrxDate)) then
      (s, trx, some (Err.write ("duplicate key value violates unique constraint")))
    else
      let stored := { trx with TrxDate := dayOf trx.TrxDate }
      ({ s with db := { s.db with partRows := stored :: s.db.partRows } },
        stored, none)
  else
    (s, trx,
      some (Err.write ("no partition of relation transactions_partitioned found for row")))

/-- Model of `Logic.InsertTransactionWithoutPartition` (`src/main.go:257-272`): insert
into the flat `transactions` table; rejected only on a `(id, trx_date)`
primary-key collision. -/
def InsertTransactionWithoutPartition (trx : Transaction) (s : LogicState) :
    LogicState × Transaction × Option Err :=
  if s.db.flatRows.any (fun r =>
      decide (r.ID = trx.ID ∧ dayOf r.TrxDate = dayOf trx.TrxDate)) then
    (s, trx, some (Err.write ("duplicate key value violates unique constraint")))
  else
    let stored := { trx with TrxDate := dayOf trx.TrxDate }
    ({ s with db := { s.db with flatRows := stored :: s.db.flatRows } },
      stored, none)

/-- Model of `Logic.InsertTransactionPartitionedDynamic` (`src/main.go:368-375`):
always call `CreateNewPartitionChildTable` first; on error return it,
otherwise insert. -/
def InsertTransactionPartitionedDynamic (trx : Transaction)
    (backendFail : Option String) (s : LogicState) :
    LogicState × Transaction × Option Err :=
  match CreateNewPartitionChildTable trx.TrxDate backendFail s with
  | (s1, some err) => (s1, trx, some err)
  | (s1, none) => InsertTransactionPartitioned trx s1

/-- Model of `Logic.InsertTransactionPartitionedDynamicCached` (`src/main.go:377-397`):
look up `isExist:<tableName>` in the cache; on a `true` hit insert directly;
otherwise create the child table, and only on success store `true` and insert. -/
def InsertTransactionPartitionedDynamicCached (trx : Transaction)
    (backendFail : Option String) (s : LogicState) :
    LogicState × Transaction × Option Err :=
  let tableName := ChildTableName trx.TrxDate
  let key := "isExist:" ++ tableName
  if mapLookup s.childTableMap key = some true then
    InsertTransactionPartitioned trx s
  else
    match CreateNewPartitionChildTable trx.TrxDate backendFail s with
    | (s1, some err) => (s1, trx, some err)
    | (s1, none) =>
        let s2 := { s1 with childTableMap := mapStore s1.childTableMap key true }
        InsertTransactionPartitioned trx s2

/-- Select the row with the greatest `trx_timestamp`
(`ORDER BY trx_timestamp DESC LIMIT 1`); `none` when no row matches. -/
def latestBy : List Transaction → Option Transaction
  | [] => none
  | t :: ts =>
      match latestBy ts with
      | none => some t
      | some u => if Time.ltb t.TrxTimestamp u.TrxTimestamp then some u else some t

/-- Model of `Logic.FetchOneTransactionPartitioned` (`src/main.go:425-449`): select by
`(id, user_id, trx_date)` from `transactions_partitioned`.  The scan target
starts as `&Transaction{}`; when zero rows match, the loop body never runs and
the zero-valued record is returned with a `nil` error. -/
def FetchOneTransactionPartitioned (id userID : String) (date : Time)
    (s : LogicState) : Transaction × Option Err :=
  let matching := s.db.partRows.filter (fun r =>
    decide (r.ID = id ∧ r.UserID = userID ∧ dayOf r.TrxDate = dayOf date))
  match latestBy matching with
  | some r => (r, none)
  | none => (Transaction.zero, none)

/-- Model of `Logic.FetchOneTransactionWithoutPartition` (`src/main.go:399-423`): the
same query against the flat `transactions` table. -/
def FetchOneTransactionWithoutPartition (id userID : String) (date : Time)
    (s : LogicState) : Transaction × Option Err :=
  let matching := s.db.flatRows.filter (fun r =>
    decide (r.ID = id ∧ r.UserID = userID ∧ dayOf r.TrxDate = dayOf date))
  match latestBy matching with
  | some r => (r, none)
  | none => (Transaction.zero, none)

/-- One invocation of an operation of the core, with its arguments and, for
DDL-issuing operations, the backend outcome. -/
inductive Op where
  | createLogTable (backendFail : Option String)
  | createParent (backendFail : Option String)
  | createChild (t : Time) (backendFail : Option String)
  | checkChild (tableName : String)
  | insertFlat (trx : Transaction)
  | insertPart (trx : Transaction)
  | insertDyn (trx : Transaction) (backendFail : Option String)
  | insertDynCached (trx : Transaction) (backendFail : Option String)
  | fetchFlat (id userID : String) (date : Time)
  | fetchPart (id userID : String) (date : Time)
deriving DecidableEq, Repr

/-- The state transition of one operation (read-only operations leave the
state unchanged). -/
def applyOp : Op → LogicState → LogicState
  | Op.createLogTable f, s => (CreateLogTable f s).1
  | Op.createParent f, s => (CreatePartitionParentTable f s).1
  | Op.createChild t f, s => (CreateNewPartitionChildTable t f s).1
  | Op.checkChild _, s => s
  | Op.insertFlat trx, s => (InsertTransactionWithoutPartition trx s).1
  | Op.insertPart trx, s => (InsertTransactionPartitioned trx s).1
  | Op.insertDyn trx f, s => (InsertTransactionPartitionedDynamic trx f s).1
  | Op.insertDynCached trx f, s =>
      (InsertTransactionPartitionedDynamicCached trx f s).1
  | Op.fetchFlat _ _ _, s => s
  | Op.fetchPart _ _ _, s => s

/-- Run a sequence of `InsertTransactionPartitionedDynamicCached` calls,
threading the state. -/
def runCalls (calls : List (Transaction × Option String)) (s : LogicState) :
    LogicState :=
  calls.foldl
    (fun st c => (InsertTransactionPartitionedDynamicCached c.1 c.2 st).1) s

/-- A calendar-valid date: real Go times have month 1–12 and day 1–31; we
restrict years to four digits, where `Format("2006")` zero-pads. -/
def validDate (t : Time) : Prop :=
  1 ≤ t.month ∧ t.month ≤ 12 ∧ 1 ≤ t.day ∧ t.day ≤ 31 ∧ t.year ≤ 9999

instance (t : Time) : Decidable (validDate t) := by
  unfold validDate; infer_instance

/-! ## Helper lemmas -/

/-- Sample record used to instantiate universally quantified theorems. -/
def trxSample : Transaction :=
  ⟨"A", "1", "sample", "SUCCESS", ⟨2021, 6, 30, 10, 30, 0, 0⟩, ⟨2021, 6, 30, 10, 30, 0, 0⟩⟩

/-- A second sample record on the same day as `trxSample`. -/
def trxSample2 : Transaction :=
  ⟨"B", "1", "sample", "SUCCESS", ⟨2021, 6, 30, 23, 59, 59, 0⟩, ⟨2021, 6, 30, 23, 59, 59, 0⟩⟩

/-- A state whose cache and backend already hold the child table for
`trxSample`. -/
def cachedStateSample : LogicState :=
  { emptyState with
    db := { emptyState.db with childTables := [ChildTableName trxSample.TrxDate] },
    childTableMap := [("isExist:" ++ ChildTableName trxSample.TrxDate, true)] }

/-- A sample backend error message. -/
def msgSample : String := "connection refused"

lemma digitChar_inj_fin : ∀ a b : Fin 10, Nat.digitChar a.val = Nat.digitChar b.val → a = b := by
  decide

lemma digitChar_inj {a b : Nat} (ha : a < 10) (hb : b < 10)
    (h : Nat.digitChar a = Nat.digitChar b) : a = b := by
  have := digitChar_inj_fin ⟨a, ha⟩ ⟨b, hb⟩ h
  exact congrArg Fin.val this

lemma pad2_inj {m1 m2 : Nat} (h1 : m1 < 100) (h2 : m2 < 100)
    (h : pad2 m1 = pad2 m2) : m1 = m2 := by
  unfold pad2 at h
  rw [if_pos h1, if_pos h2] at h
  have hd : [Nat.digitChar (m1 / 10), Nat.digitChar (m1 % 10)]
      = [Nat.digitChar (m2 / 10), Nat.digitChar (m2 % 10)] := congrArg String.data h
  simp only [List.cons.injEq, and_true] at hd
  have e1 := digitChar_inj (by omega) (by omega) hd.1
  have e2 := digitChar_inj (by omega) (by omega) hd.2
  omega

lemma pad4_inj {n1 n2 : Nat} (h1 : n1 < 10000) (h2 : n2 < 10000)
    (h : pad4 n1 = pad4 n2) : n1 = n2 := by
  unfold pad4 at h
  rw [if_pos h1, if_pos h2] at h
  have hd : [Nat.digitChar (n1 / 1000), Nat.digitChar (n1 / 100 % 10),
      Nat.digitChar (n1 / 10 % 10), Nat.digitChar (n1 % 10)]
      = [Nat.digitChar (n2 / 1000), Nat.digitChar (n2 / 100 % 10),
      Nat.digitChar (n2 / 10 % 10), Nat.digitChar (n2 % 10)] := congrArg String.data h
  simp only [List.cons.injEq, and_true] at hd
  have e1 := digitChar_inj (by omega) (by omega) hd.1
  have e2 := digitChar_inj (by omega) (by omega) hd.2.1
  have e3 := digitChar_inj (by omega) (by omega) hd.2.2.1
  have e4 := digitChar_inj (by omega) (by omega) hd.2.2.2
  omega

lemma pad2_data_length {n : Nat} (h : n < 100) : (pad2 n).data.length = 2 := by
  unfold pad2; rw [if_pos h]; rfl

lemma pad4_data_length {n : Nat} (h : n < 10000) : (pad4 n).data.length = 4 := by
  unfold pad4; rw [if_pos h]; rfl

lemma string_append_data (s t : String) : (s ++ t).data = s.data ++ t.data := rfl

lemma string_data_inj {s t : String} (h : s.data = t.data) : s = t := String.ext h

/-- Injectivity of the child-table naming scheme on valid dates. -/
lemma childTableName_inj {t1 t2 : Time} (v1 : validDate t1) (v2 : validDate t2)
    (h : ChildTableName t1 = ChildTableName t2) : sameDay t1 t2 := by
  obtain ⟨hm1a, hm1b, hd1a, hd1b, hy1⟩ := v1
  obtain ⟨hm2a, hm2b, hd2a, hd2b, hy2⟩ := v2
  have hy1' : t1.year < 10000 := by omega
  have hy2' : t2.year < 10000 := by omega
  have hm1' : t1.month < 100 := by omega
  have hm2' : t2.month < 100 := by omega
  have hd1' : t1.day < 100 := by omega
  have hd2' : t2.day < 100 := by omega
  unfold ChildTableName dayOf at h
  simp only at h
  have hd := congrArg String.data h
  simp only [string_append_data, List.append_assoc] at hd
  have hd' := List.append_cancel_left hd
  have step1 := List.append_inj hd' (by rw [pad4_data_length hy1', pad4_data_length hy2'])
  have hyear : t1.year = t2.year :=
    pad4_inj hy1' hy2' (string_data_inj step1.1)
  have step2 := List.append_cancel_left step1.2
  have step3 := List.append_inj step2 (by rw [pad2_data_length hm1', pad2_data_length hm2'])
  have hmonth : t1.month = t2.month :=
    pad2_inj hm1' hm2' (string_data_inj step3.1)
  have step4 := List.append_cancel_left step3.2
  have hday : t1.day = t2.day :=
    pad2_inj hd1' hd2' (string_data_inj step4)
  exact ⟨hyear, hmonth, hday⟩

lemma mapLookup_cons (k : String) (v : Bool) (m : List (String × Bool)) (key : String) :
    mapLookup ((k, v) :: m) key = if k = key then some v else mapLookup m key := rfl

lemma mapLookup_none_of_not_mem {m : List (String × Bool)} {k : String}
    (h : ∀ b, (k, b) ∉ m) : mapLookup m k = none := by
  induction m with
  | nil => rfl
  | cons p rest ih =>
    obtain ⟨pk, pv⟩ := p
    rw [mapLookup_cons]
    rw [if_neg]
    · exact ih (fun b hb => h b (List.mem_cons_of_mem _ hb))
    · intro he
      exact h pv (he ▸ List.mem_cons_self _ _)

/-- The partitioned insert touches only the partitioned rows: cache,
instrumentation, and table set are all unchanged. -/
lemma insertPart_frame (trx : Transaction) (s : LogicState) :
    (InsertTransactionPartitioned trx s).1.childTableMap = s.childTableMap
    ∧ (InsertTransactionPartitioned trx s).1.createLog = s.createLog
    ∧ (InsertTransactionPartitioned trx s).1.createdOK = s.createdOK
    ∧ (InsertTransactionPartitioned trx s).1.db.childTables = s.db.childTables
    ∧ (InsertTransactionPartitioned trx s).1.db.flatRows = s.db.flatRows := by
  unfold InsertTransactionPartitioned
  split_ifs <;> simp

/-- The flat insert touches only the flat rows. -/
lemma insertFlat_frame (trx : Transaction) (s : LogicState) :
    (InsertTransactionWithoutPartition trx s).1.childTableMap = s.childTableMap
    ∧ (InsertTransactionWithoutPartition trx s).1.createLog = s.createLog
    ∧ (InsertTransactionWithoutPartition trx s).1.createdOK = s.createdOK := by
  unfold InsertTransactionWithoutPartition
  split_ifs <;> simp

/-- Child-table creation never touches the cache. -/
lemma createChild_map (t : Time) (fail : Option String) (s : LogicState) :
    (CreateNewPartitionChildTable t fail s).1.childTableMap = s.childTableMap := by
  unfold CreateNewPartitionChildTable
  cases fail <;> simp

/-- Child-table creation appends exactly one entry to the call log. -/
lemma createChild_log (t : Time) (fail : Option String) (s : LogicState) :
    (CreateNewPartitionChildTable t fail s).1.createLog = ChildTableName t :: s.createLog := by
  unfold CreateNewPartitionChildTable
  cases fail <;> simp

/-- On backend failure, child-table creation changes nothing but the call log. -/
lemma createChild_fail (t : Time) (msg : String) (s : LogicState) :
    CreateNewPartitionChildTable t (some msg) s
      = ({ s with createLog := ChildTableName t :: s.createLog },
         some (Err.schema
           ("create transaction partitioned child table error: " ++ msg ++ ": "
             ++ childTableDDL t))) := rfl

/-- On success, child-table creation makes the child table exist, appends to
both instrumentation logs, and touches nothing else. -/
lemma createChild_ok (t : Time) (s : LogicState) :
    CreateNewPartitionChildTable t none s
      = ({ s with
            db := { s.db with
              childTables :=
                if ChildTableName t ∈ s.db.childTables then s.db.childTables
                else ChildTableName t :: s.db.childTables },
            createLog := ChildTableName t :: s.createLog,
            createdOK := ChildTableName t :: s.createdOK }, none) := rfl

/-- On a cache hit the cached insert is literally the plain partitioned
insert. -/
lemma dynCached_hit (trx : Transaction) (fail : Option String) (s : LogicState)
    (hhit : mapLookup s.childTableMap ("isExist:" ++ ChildTableName trx.TrxDate) = some true) :
    InsertTransactionPartitionedDynamicCached trx fail s = InsertTransactionPartitioned trx s := by
  simp [InsertTransactionPartitionedDynamicCached, hhit]

/-- On a cache miss with backend failure, the cached insert returns the
wrapped creation error and changes only the call log. -/
lemma dynCached_miss_fail (trx : Transaction) (msg : String) (s : LogicState)
    (hmiss : mapLookup s.childTableMap ("isExist:" ++ ChildTableName trx.TrxDate) ≠ some true) :
    InsertTransactionPartitionedDynamicCached trx (some msg) s
      = ({ s with createLog := ChildTableName trx.TrxDate :: s.createLog }, trx,
         some (Err.schema
           ("create transaction partitioned child table error: " ++ msg ++ ": "
             ++ childTableDDL trx.TrxDate))) := by
  unfold InsertTransactionPartitionedDynamicCached
  simp only [if_neg hmiss]
  rw [createChild_fail]

/-- On a cache miss with backend success, the cached insert creates the
table, marks the cache, and then performs the plain partitioned insert. -/
lemma dynCached_miss_ok (trx : Transaction) (s : LogicState)
    (hmiss : mapLookup s.childTableMap ("isExist:" ++ ChildTableName trx.TrxDate) ≠ some true) :
    InsertTransactionPartitionedDynamicCached trx none s
      = InsertTransactionPartitioned trx
          { (CreateNewPartitionChildTable trx.TrxDate none s).1 with
            childTableMap :=
              mapStore (CreateNewPartitionChildTable trx.TrxDate none s).1.childTableMap
                ("isExist:" ++ ChildTableName trx.TrxDate) true } := by
  unfold InsertTransactionPartitionedDynamicCached
  simp only [if_neg hmiss]
  rw [createChild_ok]

/-- A key the cache maps to `true` stays mapped to `true` across any cached
insert. -/
lemma dynCached_map_mono (trx : Transaction) (fail : Option String) (s : LogicState)
    (k : String) (h : mapLookup s.childTableMap k = some true) :
    mapLookup (InsertTransactionPartitionedDynamicCached trx fail s).1.childTableMap k
      = some true := by
  by_cases hhit : mapLookup s.childTableMap ("isExist:" ++ ChildTableName trx.TrxDate) = some true
  · rw [dynCached_hit trx fail s hhit, (insertPart_frame trx s).1]
    exact h
  · cases fail with
    | some msg => rw [dynCached_miss_fail trx msg s hhit]; exact h
    | none =>
        rw [dynCached_miss_ok trx s hhit]
        rw [(insertPart_frame _ _).1]
        simp only [mapStore, mapLookup_cons, createChild_map]
        split_ifs with he
        · rfl
        · exact h

/-- After a cached insert that returned no error, the cache maps the day's
key to `true`. -/
lemma dynCached_success_marks (trx : Transaction) (fail : Option String) (s : LogicState)
    (hsucc : (InsertTransactionPartitionedDynamicCached trx fail s).2.2 = none) :
    mapLookup (InsertTransactionPartitionedDynamicCached trx fail s).1.childTableMap
      ("isExist:" ++ ChildTableName trx.TrxDate) = some true := by
  by_cases hhit : mapLookup s.childTableMap ("isExist:" ++ ChildTableName trx.TrxDate) = some true
  · exact dynCached_map_mono trx fail s _ hhit
  · cases fail with
    | some msg => rw [dynCached_miss_fail trx msg s hhit] at hsucc; exact absurd hsucc (by simp)
    | none =>
        rw [dynCached_miss_ok trx s hhit, (insertPart_frame _ _).1]
        simp [mapStore, mapLookup_cons]

/-- A cache hit for the day's key means the cached insert performs no
creation call. -/
lemma dynCached_hit_log (trx : Transaction) (fail : Option String) (s : LogicState)
    (hhit : mapLookup s.childTableMap ("isExist:" ++ ChildTableName trx.TrxDate) = some true) :
    (InsertTransactionPartitionedDynamicCached trx fail s).1.createLog = s.createLog := by
  rw [dynCached_hit trx fail s hhit]
  exact (insertPart_frame trx s).2.1

/-- A cached insert logs either no creation call or exactly one, for the
day's own table name. -/
lemma dynCached_log_growth (trx : Transaction) (fail : Option String) (s : LogicState) :
    (InsertTransactionPartitionedDynamicCached trx fail s).1.createLog = s.createLog
    ∨ (InsertTransactionPartitionedDynamicCached trx fail s).1.createLog
        = ChildTableName trx.TrxDate :: s.createLog := by
  by_cases hhit : mapLookup s.childTableMap ("isExist:" ++ ChildTableName trx.TrxDate) = some true
  · exact Or.inl (dynCached_hit_log trx fail s hhit)
  · right
    cases fail with
    | some msg => rw [dynCached_miss_fail trx msg s hhit]
    | none =>
        rw [dynCached_miss_ok trx s hhit, (insertPart_frame _ _).2.1]
        rw [createChild_ok]

/-- Once the cache maps the key of identity `n` to `true`, no later cached
insert ever logs another creation call for `n`. -/
lemma runCalls_count_invariant (n : String) :
    ∀ (calls : List (Transaction × Option String)) (s : LogicState),
      mapLookup s.childTableMap ("isExist:" ++ n) = some true →
      List.count n (runCalls calls s).createLog = List.count n s.createLog := by
  intro calls
  induction calls with
  | nil => intro s _; rfl
  | cons c cs ih =>
    intro s h
    have hstep : runCalls (c :: cs) s
        = runCalls cs (InsertTransactionPartitionedDynamicCached c.1 c.2 s).1 := rfl
    rw [hstep]
    by_cases hn : ChildTableName c.1.TrxDate = n
    · have hhit : mapLookup s.childTableMap ("isExist:" ++ ChildTableName c.1.TrxDate)
          = some true := by rw [hn]; exact h
      rw [ih _ (dynCached_map_mono c.1 c.2 s _ h), dynCached_hit_log c.1 c.2 s hhit]
    · rcases dynCached_log_growth c.1 c.2 s with hg | hg
      · rw [ih _ (dynCached_map_mono c.1 c.2 s _ h), hg]
      · rw [ih _ (dynCached_map_mono c.1 c.2 s _ h), hg, List.count_cons]
        simp [hn]

/-- The partition-existence cache invariant: every binding carries the value
`true`, and every bound key is the `isExist:` key of an identity whose
child-table creation call previously returned success. -/
def CacheInv (s : LogicState) : Prop :=
  ∀ k b, (k, b) ∈ s.childTableMap → b = true ∧ ∃ n ∈ s.createdOK, k = "isExist:" ++ n

/-! ## Claim theorems -/

/-- C1: contrary to the claim, a fetch by logical key that matches zero rows
does NOT return an explicit not-found error: both
`FetchOneTransactionPartitioned` and `FetchOneTransactionWithoutPartition`
return the zero-valued record together with a `nil` error.  Evaluated at the
spec's own failing input, `FetchPartitioned("nope", "1", 2021-06-30)` against
an empty table. -/
theorem fetchOne_zero_rows_zero_value :
    FetchOneTransactionPartitioned "nope" "1" ⟨2021, 6, 30, 0, 0, 0, 0⟩ emptyState
      = (Transaction.zero, none)
    ∧ FetchOneTransactionWithoutPartition "nope" "1" ⟨2021, 6, 30, 0, 0, 0, 0⟩ emptyState
      = (Transaction.zero, none) :=
  ⟨rfl, rfl⟩

/-- C7: `ChildTableName` returns
`transaction_partition_y<YYYY>_m<MM>_d<DD>` built from the UTC year, month and
day of its argument; in particular it maps 2021-06-30T23:59:59Z to
`transaction_partition_y2021_m06_d30` and 2021-07-01T00:00:00Z to
`transaction_partition_y2021_m07_d01`. -/
theorem childTableName_format_scenarios :
    (∀ t : Time, ChildTableName t
      = "transaction_partition_y" ++ pad4 t.year ++ "_m" ++ pad2 t.month
          ++ "_d" ++ pad2 t.day)
    ∧ ChildTableName ⟨2021, 6, 30, 23, 59, 59, 0⟩ = "transaction_partition_y2021_m06_d30"
    ∧ ChildTableName ⟨2021, 7, 1, 0, 0, 0, 0⟩ = "transaction_partition_y2021_m07_d01" :=
  ⟨fun _ => rfl, by decide, by decide⟩

/-- C6: on calendar-valid dates, `ChildTableName` is constant across each UTC
calendar day and injective across distinct days. -/
theorem childTableName_day_determinism (t1 t2 : Time)
    (v1 : validDate t1) (v2 : validDate t2) :
    (sameDay t1 t2 → ChildTableName t1 = ChildTableName t2)
    ∧ (¬ sameDay t1 t2 → ChildTableName t1 ≠ ChildTableName t2) := by
  constructor
  · rintro ⟨hy, hm, hd⟩
    unfold ChildTableName dayOf
    rw [hy, hm, hd]
  · intro hne h
    exact hne (childTableName_inj v1 v2 h)

theorem childTableName_day_determinism_witness :
    ChildTableName ⟨2021, 6, 30, 23, 59, 59, 0⟩ ≠ ChildTableName ⟨2021, 7, 1, 0, 0, 0, 0⟩ :=
  (childTableName_day_determinism ⟨2021, 6, 30, 23, 59, 59, 0⟩ ⟨2021, 7, 1, 0, 0, 0, 0⟩
    (by decide) (by decide)).2 (by decide)

/-- C4, counterexample: two timestamps on the same UTC calendar day for which
`CreateNewPartitionChildTable` builds different DDL texts — the partition
bound literal is the full RFC3339Nano timestamp, so the statements are not
identical. -/
theorem createChild_ddl_not_identical_same_day :
    sameDay ⟨2021, 6, 30, 0, 0, 0, 0⟩ ⟨2021, 6, 30, 23, 59, 59, 0⟩
    ∧ childTableDDL ⟨2021, 6, 30, 0, 0, 0, 0⟩ ≠ childTableDDL ⟨2021, 6, 30, 23, 59, 59, 0⟩ := by
  constructor
  · exact ⟨rfl, rfl, rfl⟩
  · decide

/-- C4, amended: for two timestamps on the same UTC calendar day,
`CreateNewPartitionChildTable` targets the same child table (same identity),
and its DDL texts coincide exactly when the embedded RFC3339Nano bound
literals coincide — the bound is the full timestamp, not a day-granularity
date literal. -/
theorem createChild_same_day_table_ddl (t1 t2 : Time) (h : sameDay t1 t2) :
    ChildTableName t1 = ChildTableName t2
    ∧ (childTableDDL t1 = childTableDDL t2 ↔ rfc3339Nano t1 = rfc3339Nano t2) := by
  obtain ⟨hy, hm, hd⟩ := h
  have hname : ChildTableName t1 = ChildTableName t2 := by
    unfold ChildTableName dayOf
    rw [hy, hm, hd]
  refine ⟨hname, ?_, ?_⟩
  · intro hddl
    unfold childTableDDL at hddl
    rw [hname] at hddl
    have hdata := congrArg String.data hddl
    simp only [string_append_data, List.append_assoc] at hdata
    have h1 := List.append_cancel_left hdata
    have h2 := List.append_cancel_left h1
    have h3 := List.append_cancel_left h2
    have h4 := List.append_cancel_left h3
    have h5 := List.append_cancel_right h4
    exact string_data_inj h5
  · intro hr
    unfold childTableDDL
    rw [hname, hr]

theorem createChild_same_day_table_ddl_witness :
    ChildTableName ⟨2021, 6, 30, 0, 0, 0, 0⟩ = ChildTableName ⟨2021, 6, 30, 23, 59, 59, 0⟩ :=
  (createChild_same_day_table_ddl ⟨2021, 6, 30, 0, 0, 0, 0⟩ ⟨2021, 6, 30, 23, 59, 59, 0⟩
    (by decide)).1

/-- C2: `InsertTransactionPartitionedDynamicCached` derives the child-table
identity from the record's `TrxDate`; on a cache hit it performs the
partitioned insert with no creation call, and on a miss it calls creation,
marking the cache and inserting only when creation succeeds (on failure the
cache entry stays as it was). -/
theorem dynCached_cache_protocol (trx : Transaction) (fail : Option String)
    (s : LogicState) :
    (mapLookup s.childTableMap ("isExist:" ++ ChildTableName trx.TrxDate) = some true →
      InsertTransactionPartitionedDynamicCached trx fail s
        = InsertTransactionPartitioned trx s
      ∧ (InsertTransactionPartitionedDynamicCached trx fail s).1.createLog = s.createLog)
    ∧ (mapLookup s.childTableMap ("isExist:" ++ ChildTableName trx.TrxDate) ≠ some true →
      (InsertTransactionPartitionedDynamicCached trx fail s).1.createLog
        = ChildTableName trx.TrxDate :: s.createLog
      ∧ (∀ msg, fail = some msg →
          mapLookup (InsertTransactionPartitionedDynamicCached trx fail s).1.childTableMap
              ("isExist:" ++ ChildTableName trx.TrxDate)
            = mapLookup s.childTableMap ("isExist:" ++ ChildTableName trx.TrxDate))
      ∧ (fail = none →
          mapLookup (InsertTransactionPartitionedDynamicCached trx fail s).1.childTableMap
              ("isExist:" ++ ChildTableName trx.TrxDate) = some true
          ∧ InsertTransactionPartitionedDynamicCached trx fail s
              = InsertTransactionPartitioned trx
                  { (CreateNewPartitionChildTable trx.TrxDate none s).1 with
                    childTableMap :=
                      mapStore (CreateNewPartitionChildTable trx.TrxDate none s).1.childTableMap
                        ("isExist:" ++ ChildTableName trx.TrxDate) true })) := by
  constructor
  · intro hhit
    exact ⟨dynCached_hit trx fail s hhit, dynCached_hit_log trx fail s hhit⟩
  · intro hmiss
    refine ⟨?_, ?_, ?_⟩
    · cases fail with
      | some msg => rw [dynCached_miss_fail trx msg s hmiss]
      | none =>
          rw [dynCached_miss_ok trx s hmiss, (insertPart_frame _ _).2.1]
          rw [createChild_ok]
    · intro msg hf
      subst hf
      rw [dynCached_miss_fail trx msg s hmiss]
    · intro hf
      subst hf
      refine ⟨?_, dynCached_miss_ok trx s hmiss⟩
      rw [dynCached_miss_ok trx s hmiss, (insertPart_frame _ _).1]
      simp [mapStore, mapLookup_cons]

theorem dynCached_cache_protocol_witness :
    (InsertTransactionPartitionedDynamicCached trxSample none emptyState).1.createLog
      = ChildTableName trxSample.TrxDate :: emptyState.createLog :=
  ((dynCached_cache_protocol trxSample none emptyState).2 (by decide)).1

/-- C3: when the creation step inside the cached insert fails, the cache is
left completely unchanged, the wrapped creation error is returned, and the
backend (in particular the partitioned rows) is untouched — no insert is
attempted. -/
theorem dynCached_create_fail_no_mark_no_insert (trx : Transaction)
    (msg : String) (s : LogicState)
    (hmiss : mapLookup s.childTableMap ("isExist:" ++ ChildTableName trx.TrxDate)
      ≠ some true) :
    (InsertTransactionPartitionedDynamicCached trx (some msg) s).1.childTableMap
      = s.childTableMap
    ∧ (InsertTransactionPartitionedDynamicCached trx (some msg) s).1.db = s.db
    ∧ (InsertTransactionPartitionedDynamicCached trx (some msg) s).2.2
        = (CreateNewPartitionChildTable trx.TrxDate (some msg) s).2
    ∧ (InsertTransactionPartitionedDynamicCached trx (some msg) s).2.2
        = some (Err.schema
            ("create transaction partitioned child table error: " ++ msg ++ ": "
              ++ childTableDDL trx.TrxDate)) := by
  rw [dynCached_miss_fail trx msg s hmiss, createChild_fail]
  exact ⟨rfl, rfl, rfl, rfl⟩

theorem dynCached_create_fail_witness :
    (InsertTransactionPartitionedDynamicCached trxSample (some msgSample) emptyState).1.childTableMap
      = emptyState.childTableMap :=
  (dynCached_create_fail_no_mark_no_insert trxSample msgSample emptyState (by decide)).1

/-- C8: `InsertTransactionPartitionedDynamic` invokes child-table creation for
the record's `TrxDate` on every call; on creation failure it returns that
error without inserting, and on success it performs the partitioned insert on
the post-creation state. -/
theorem dyn_always_creates_before_insert (trx : Transaction)
    (fail : Option String) (s : LogicState) :
    (InsertTransactionPartitionedDynamic trx fail s).1.createLog
      = ChildTableName trx.TrxDate :: s.createLog
    ∧ (∀ msg, fail = some msg →
        (InsertTransactionPartitionedDynamic trx fail s).2.2
          = (CreateNewPartitionChildTable trx.TrxDate fail s).2
        ∧ (InsertTransactionPartitionedDynamic trx fail s).1.db.partRows
            = s.db.partRows)
    ∧ (fail = none →
        InsertTransactionPartitionedDynamic trx fail s
          = InsertTransactionPartitioned trx
              (CreateNewPartitionChildTable trx.TrxDate none s).1) := by
  refine ⟨?_, ?_, ?_⟩
  · cases fail with
    | some msg => rfl
    | none =>
        show (InsertTransactionPartitioned trx
          (CreateNewPartitionChildTable trx.TrxDate none s).1).1.createLog = _
        rw [(insertPart_frame _ _).2.1, createChild_log]
  · intro msg hf
    subst hf
    exact ⟨rfl, rfl⟩
  · intro hf
    subst hf
    rfl

theorem dyn_always_creates_witness :
    (InsertTransactionPartitionedDynamic trxSample none emptyState).1.createLog
      = ChildTableName trxSample.TrxDate :: emptyState.createLog :=
  (dyn_always_creates_before_insert trxSample none emptyState).1

/-- C10: when the cache already maps the record's day to `true`, the cached
insert is behaviorally identical to the plain partitioned insert — the same
state, returned record and error — and the plain insert performs no schema
operation and no cache modification. -/
theorem dynCached_hit_refines_insertPartitioned (trx : Transaction)
    (fail : Option String) (s : LogicState)
    (hhit : mapLookup s.childTableMap ("isExist:" ++ ChildTableName trx.TrxDate)
      = some true) :
    InsertTransactionPartitionedDynamicCached trx fail s
      = InsertTransactionPartitioned trx s
    ∧ (InsertTransactionPartitioned trx s).1.createLog = s.createLog
    ∧ (InsertTransactionPartitioned trx s).1.childTableMap = s.childTableMap :=
  ⟨dynCached_hit trx fail s hhit, (insertPart_frame trx s).2.1,
    (insertPart_frame trx s).1⟩

theorem dynCached_hit_refines_witness :
    InsertTransactionPartitionedDynamicCached trxSample none cachedStateSample
      = InsertTransactionPartitioned trxSample cachedStateSample :=
  (dynCached_hit_refines_insertPartitioned trxSample none cachedStateSample (by decide)).1

/-- C9: once one cached insert for a day has succeeded, no later cached
insert — in any subsequent sequence of calls, in particular those for
timestamps of that same day — logs another creation call for that day's
child table. -/
theorem dynCached_amortizes_creation (trx0 : Transaction)
    (fail0 : Option String) (s : LogicState)
    (hsucc : (InsertTransactionPartitionedDynamicCached trx0 fail0 s).2.2 = none)
    (calls : List (Transaction × Option String)) :
    List.count (ChildTableName trx0.TrxDate)
        (runCalls calls (InsertTransactionPartitionedDynamicCached trx0 fail0 s).1).createLog
      = List.count (ChildTableName trx0.TrxDate)
          (InsertTransactionPartitionedDynamicCached trx0 fail0 s).1.createLog :=
  runCalls_count_invariant (ChildTableName trx0.TrxDate) calls _
    (dynCached_success_marks trx0 fail0 s hsucc)

theorem dynCached_amortizes_creation_witness :
    List.count (ChildTableName trxSample.TrxDate)
        (runCalls [(trxSample2, none)]
          (InsertTransactionPartitionedDynamicCached trxSample none emptyState).1).createLog
      = List.count (ChildTableName trxSample.TrxDate)
          (InsertTransactionPartitionedDynamicCached trxSample none emptyState).1.createLog :=
  dynCached_amortizes_creation trxSample none emptyState (by decide) [(trxSample2, none)]

/-- Case analysis of one operation's effect on the cache: either it leaves
the cache untouched, or it prepends a single `true` binding for an identity
whose creation just succeeded; `createdOK` never shrinks. -/
lemma applyOp_cache_cases (op : Op) (s : LogicState) :
    ((applyOp op s).childTableMap = s.childTableMap
      ∧ ∀ n, n ∈ s.createdOK → n ∈ (applyOp op s).createdOK)
    ∨ (∃ nm, (applyOp op s).childTableMap = ("isExist:" ++ nm, true) :: s.childTableMap
        ∧ nm ∈ (applyOp op s).createdOK
        ∧ ∀ n, n ∈ s.createdOK → n ∈ (applyOp op s).createdOK) := by
  cases op with
  | createLogTable f => left; cases f <;> exact ⟨rfl, fun n h => h⟩
  | createParent f => left; cases f <;> exact ⟨rfl, fun n h => h⟩
  | createChild t f =>
      left
      cases f with
      | some msg => exact ⟨rfl, fun n h => h⟩
      | none =>
          refine ⟨createChild_map t none s, fun n h => ?_⟩
          show n ∈ (CreateNewPartitionChildTable t none s).1.createdOK
          rw [createChild_ok]
          exact List.mem_cons_of_mem _ h
  | checkChild nm => left; exact ⟨rfl, fun n h => h⟩
  | insertFlat trx =>
      left
      refine ⟨(insertFlat_frame trx s).1, fun n h => ?_⟩
      show n ∈ (InsertTransactionWithoutPartition trx s).1.createdOK
      rw [(insertFlat_frame trx s).2.2]
      exact h
  | insertPart trx =>
      left
      refine ⟨(insertPart_frame trx s).1, fun n h => ?_⟩
      show n ∈ (InsertTransactionPartitioned trx s).1.createdOK
      rw [(insertPart_frame trx s).2.2.1]
      exact h
  | insertDyn trx f =>
      left
      cases f with
      | some msg => exact ⟨rfl, fun n h => h⟩
      | none =>
          have hred : applyOp (Op.insertDyn trx none) s
              = (InsertTransactionPartitioned trx
                  (CreateNewPartitionChildTable trx.TrxDate none s).1).1 := rfl
          rw [hred]
          refine ⟨?_, fun n h => ?_⟩
          · rw [(insertPart_frame _ _).1, createChild_map]
          · rw [(insertPart_frame _ _).2.2.1, createChild_ok]
            exact List.mem_cons_of_mem _ h
  | insertDynCached trx f =>
      by_cases hhit : mapLookup s.childTableMap
          ("isExist:" ++ ChildTableName trx.TrxDate) = some true
      · left
        have hred : applyOp (Op.insertDynCached trx f) s
            = (InsertTransactionPartitionedDynamicCached trx f s).1 := rfl
        rw [hred, dynCached_hit trx f s hhit]
        refine ⟨(insertPart_frame trx s).1, fun n h => ?_⟩
        rw [(insertPart_frame trx s).2.2.1]
        exact h
      · cases f with
        | some msg =>
            left
            have hred : applyOp (Op.insertDynCached trx (some msg)) s
                = (InsertTransactionPartitionedDynamicCached trx (some msg) s).1 := rfl
            rw [hred, dynCached_miss_fail trx msg s hhit]
            exact ⟨rfl, fun n h => h⟩
        | none =>
            right
            refine ⟨ChildTableName trx.TrxDate, ?_, ?_, ?_⟩
            · show (InsertTransactionPartitionedDynamicCached trx none s).1.childTableMap = _
              rw [dynCached_miss_ok trx s hhit, (insertPart_frame _ _).1]
              show mapStore (CreateNewPartitionChildTable trx.TrxDate none s).1.childTableMap
                ("isExist:" ++ ChildTableName trx.TrxDate) true = _
              rw [mapStore, createChild_map]
            · show ChildTableName trx.TrxDate
                ∈ (InsertTransactionPartitionedDynamicCached trx none s).1.createdOK
              rw [dynCached_miss_ok trx s hhit, (insertPart_frame _ _).2.2.1]
              show ChildTableName trx.TrxDate
                ∈ (CreateNewPartitionChildTable trx.TrxDate none s).1.createdOK
              rw [createChild_ok]
              exact List.mem_cons_self _ _
            · intro n h
              show n ∈ (InsertTransactionPartitionedDynamicCached trx none s).1.createdOK
              rw [dynCached_miss_ok trx s hhit, (insertPart_frame _ _).2.2.1]
              show n ∈ (CreateNewPartitionChildTable trx.TrxDate none s).1.createdOK
              rw [createChild_ok]
              exact List.mem_cons_of_mem _ h
  | fetchFlat id userID date => left; exact ⟨rfl, fun n h => h⟩
  | fetchPart id userID date => left; exact ⟨rfl, fun n h => h⟩

/-- C5: every operation of the core preserves the cache invariant — every
binding is `true` and belongs to an identity whose creation call returned
success; moreover no operation removes or falsifies an entry (each key's
lookup is either unchanged or `some true`), and lookups of unseen keys
report nothing. -/
theorem cache_write_once_true_invariant (op : Op) (s : LogicState)
    (hInv : CacheInv s) :
    CacheInv (applyOp op s)
    ∧ (∀ k, mapLookup (applyOp op s).childTableMap k = mapLookup s.childTableMap k
        ∨ mapLookup (applyOp op s).childTableMap k = some true)
    ∧ (∀ k, (∀ b, (k, b) ∉ s.childTableMap) → mapLookup s.childTableMap k = none) := by
  refine ⟨?_, ?_, fun k h => mapLookup_none_of_not_mem h⟩
  · rcases applyOp_cache_cases op s with ⟨hmap, hok⟩ | ⟨nm, hmap, hnm, hok⟩
    · intro k b hb
      rw [hmap] at hb
      obtain ⟨hbtrue, n, hn, hk⟩ := hInv k b hb
      exact ⟨hbtrue, n, hok n hn, hk⟩
    · intro k b hb
      rw [hmap] at hb
      rcases List.mem_cons.mp hb with he | ht
      · have hk : k = "isExist:" ++ nm := congrArg Prod.fst he
        have hbv : b = true := congrArg Prod.snd he
        exact ⟨hbv, nm, hnm, hk⟩
      · obtain ⟨hbtrue, n, hn, hk⟩ := hInv k b ht
        exact ⟨hbtrue, n, hok n hn, hk⟩
  · intro k
    rcases applyOp_cache_cases op s with ⟨hmap, _⟩ | ⟨nm, hmap, _, _⟩
    · left; rw [hmap]
    · rw [hmap, mapLookup_cons]
      split_ifs with he
      · right; rfl
      · left; rfl

theorem cache_invariant_witness :
    CacheInv (applyOp (Op.insertDynCached trxSample none) emptyState) :=
  (cache_write_once_true_invariant (Op.insertDynCached trxSample none) emptyState
    (fun _ _ hb => absurd hb (List.not_mem_nil _))).1
